import Mathlib

/-!
# ssbcV2 `p2p/tcp.go`: the cross-chain relay connection protocol

A shallow embedding of the TCP message handlers of `src/p2p/tcp.go`.

* Go `string` and `[]byte` values are character sequences (`GoString`).
* The process-wide state touched by the handlers (ledger, remote header
  store, the bytes written to the connection, and the order of ledger and
  mutex operations) is the record `World`, passed explicitly.
* A Go run-time panic (slice index out of range) is the error side of
  `Except GoPanic World`.
* Packages that are imported by `tcp.go` but are not part of the file
  (`commoncon`, `meta`, `chain`, `redis`, `merkle`, `util`, `encoding/json`)
  are either modelled from the specification or taken as fields of `Env`.
-/

namespace Ssbc

/-- Go `string` / `[]byte`, as a sequence of characters. -/
abbrev GoString := List Char

/-! ## Data model (package `meta`, not part of `tcp.go`) -/

/-- Modelled from the spec: `meta.TcpMessage`, the wire envelope
`{type, content}` of spec section 6 (`Typ` is the Go field `Type`). -/
structure TcpMessage where
  Typ : Int
  Content : GoString
deriving DecidableEq, Repr

/-- Modelled from the spec: `meta.AbstractBlockHeader`,
`{chainId, height, merkleRoot}` of spec section 3. -/
structure AbstractBlockHeader where
  ChainId : GoString
  Height : Int
  MerkleRoot : GoString
deriving DecidableEq, Repr

/-- Modelled from the spec: the Merkle proof carried by a transfer or a receipt,
`{transHash, merklePath, merkleIndex, height}` of spec section 3. -/
structure MerkleProof where
  TransHash : GoString
  MerklePath : List GoString
  MerkleIndex : Int
  Height : Int
deriving DecidableEq, Repr

/-- Modelled from the spec: `meta.CrossTran`,
`{kind, sourceChainId, to, value, proof}` of spec section 3
(`Typ` is the Go field `Type`). -/
structure CrossTran where
  Typ : Int
  SourceChainId : GoString
  To : GoString
  Value : Int
  Proof : MerkleProof
deriving DecidableEq, Repr

/-- Modelled from the spec: `meta.CrossTranReceipt`,
`{sourceChainId, proof}` of spec section 3. -/
structure CrossTranReceipt where
  SourceChainId : GoString
  Proof : MerkleProof
deriving DecidableEq, Repr

/-- Modelled from the spec: `meta.Transaction`, `{from, to, data, value, id}` of
spec section 3; `none` is the Go `nil` slice. -/
structure Transaction where
  From : GoString
  To : GoString
  Data : Option GoString
  Value : Int
  Id : Option GoString
deriving DecidableEq, Repr

/-- Modelled from the spec: a ledger block, built from the pending transactions
that were handed to `chain.CreateNewBlock`; `stamp` stands for every other
field the block builder fills in. -/
structure Block where
  txs : List Transaction
  stamp : GoString
deriving DecidableEq, Repr

/-! ## Process state -/

/-- Modelled from the spec: the ledger behind package `chain` (spec sections 3
and 4.4): the persisted chain and the pending-transaction pool. -/
structure Ledger where
  chain : List Block
  pending : List Transaction
deriving DecidableEq, Repr

/-- Ledger and mutex operations, in the order in which a handler issues them. -/
inductive Event where
  | storeCurrentTx
  | getCurrentTxs
  | createNewBlock
  | getCurrentBlockChain
  | mutexLock
  | storeBlockChain
  | mutexUnlock
  | clearCurrentTxs
  | getLocalAbstractBlockChainHeaders
  | locateBlockHeightWithTran
  | packCrossReceipt
deriving DecidableEq, Repr

/-- Everything a handler can observe or change: the ledger, the Remote Header
Store (redis), the byte strings written to the connection so far (oldest
first) and the ledger/mutex operations issued so far (oldest first). -/
structure World where
  ledger : Ledger
  store : GoString → Option GoString
  out : List GoString
  trace : List Event

/-- A Go run-time panic: indexing a slice of length `len` at `index`. -/
inductive GoPanic where
  | indexOutOfRange (index : Int) (len : Nat)
deriving DecidableEq, Repr

/-- The collaborators of `tcp.go` that are not part of the file: the constants
of `commoncon`, the `encoding/json` codec at each type used (a decoder returns
the value left in the target variable together with the error flag, since the
handlers only log the error and go on with the variable), `util.CalculateHash`,
`merkle.VerifyTranExistence`, and the pure parts of package `chain`. -/
structure Env where
  TcpPing : Int
  TcpPong : Int
  TcpAbstractHeader : Int
  TcpCrossTrans : Int
  TcpCrossTransReceipt : Int
  CrossTranTransferType : Int
  RemoteHeadersKey : GoString
  LocalChainId2 : GoString
  unmarshalTcpMessage : GoString → TcpMessage × Bool
  unmarshalCrossTran : GoString → CrossTran × Bool
  unmarshalHeaders : GoString → List AbstractBlockHeader × Bool
  unmarshalReceipt : GoString → CrossTranReceipt × Bool
  marshalTcpMessage : TcpMessage → GoString
  marshalHeaders : List AbstractBlockHeader → GoString
  marshalReceipt : CrossTranReceipt → GoString
  marshalTransaction : Transaction → GoString
  CalculateHash : GoString → GoString
  VerifyTranExistence : GoString → List GoString → Int → GoString → Bool
  buildBlock : List Transaction → Block
  localAbstractHeaders : Ledger → GoString → List AbstractBlockHeader
  locate : Ledger → GoString → Int × Int
  packReceipt : Ledger → CrossTran → Int → Int → CrossTranReceipt

/-! ## Go primitives -/

/-- Go slice indexing `xs[i]` with a signed index: `none` is the run-time
panic "index out of range". -/
def sliceIndex {α : Type} (xs : List α) (i : Int) : Option α :=
  if i < 0 then none else xs.get? i.toNat

/-- Go `unicode.IsSpace`. -/
def isSpace (c : Char) : Bool :=
  let n := c.toNat
  (9 ≤ n && n ≤ 13) || n == 32 || n == 133 || n == 160 || n == 5760 ||
  (8192 ≤ n && n ≤ 8202) || n == 8232 || n == 8233 || n == 8239 ||
  n == 8287 || n == 12288

/-- Go `strings.TrimSpace`. -/
def trimSpace (s : GoString) : GoString :=
  ((s.dropWhile isSpace).reverse.dropWhile isSpace).reverse

/-- The call `c.Write(b)` on the connection. -/
def connWrite (b : GoString) (w : World) : World :=
  { w with out := w.out ++ [b] }

/-- The calls `mutex.Lock()`. -/
def mutexLock (w : World) : World :=
  { w with trace := w.trace ++ [Event.mutexLock] }

/-- The calls `mutex.Unlock()`. -/
def mutexUnlock (w : World) : World :=
  { w with trace := w.trace ++ [Event.mutexUnlock] }

/-! ## Remote Header Store (package `redis`) -/

/-- Modelled from the spec: `redis.GetFromRedis`, the `get` of spec section 4.2;
a missing key yields the empty string and an error. -/
def GetFromRedis (key : GoString) (w : World) : GoString × Bool :=
  match w.store key with
  | some v => (v, false)
  | none => ([], true)

/-- Modelled from the spec: `redis.SetIntoRedis`, the `set` of spec section 4.2:
an unconditional overwrite of one key. -/
def SetIntoRedis (key value : GoString) (w : World) : World :=
  { w with store := fun k => if k = key then some value else w.store k }

/-! ## Ledger facade (package `chain`) -/

/-- Modelled from the spec: `chain.StoreCurrentTx`, the `enqueue(tx)` of
spec section 4.4. -/
def StoreCurrentTx (tx : Transaction) (w : World) : World :=
  { w with
    ledger := { w.ledger with pending := w.ledger.pending ++ [tx] }
    trace := w.trace ++ [Event.storeCurrentTx] }

/-- Modelled from the spec: `chain.GetCurrentTxs`, the `pendingTxs()` of
spec section 4.4. -/
def GetCurrentTxs (w : World) : List Transaction × World :=
  (w.ledger.pending, { w with trace := w.trace ++ [Event.getCurrentTxs] })

/-- Modelled from the spec: `chain.CreateNewBlock`, the `buildBlock(txs)` of
spec section 4.4. -/
def CreateNewBlock (env : Env) (txs : List Transaction) (w : World) : Block × World :=
  (env.buildBlock txs, { w with trace := w.trace ++ [Event.createNewBlock] })

/-- Modelled from the spec: `chain.GetCurrentBlockChain`, the snapshot read
`currentChain()` of spec section 4.4. -/
def GetCurrentBlockChain (w : World) : List Block × World :=
  (w.ledger.chain, { w with trace := w.trace ++ [Event.getCurrentBlockChain] })

/-- Modelled from the spec: `chain.StoreBlockChain`, the persist step of
`appendAndPersist` of spec section 4.4: the stored chain becomes the argument. -/
def StoreBlockChain (c : List Block) (w : World) : World :=
  { w with
    ledger := { w.ledger with chain := c }
    trace := w.trace ++ [Event.storeBlockChain] }

/-- Modelled from the spec: `chain.ClearCurrentTxs`, the `clearPending()` of
spec section 4.4. -/
def ClearCurrentTxs (w : World) : World :=
  { w with
    ledger := { w.ledger with pending := [] }
    trace := w.trace ++ [Event.clearCurrentTxs] }

/-- Modelled from the spec: `chain.GetLocalAbstractBlockChainHeaders`, the
read-only `localAbstractHeaders(chainId)` of spec section 4.4. -/
def GetLocalAbstractBlockChainHeaders (env : Env) (chainId : GoString) (w : World) :
    List AbstractBlockHeader × World :=
  (env.localAbstractHeaders w.ledger chainId,
    { w with trace := w.trace ++ [Event.getLocalAbstractBlockChainHeaders] })

/-- Modelled from the spec: `chain.LocateBlockHeightWithTran`, the read-only
`locate(txId)` of spec section 4.4. -/
def LocateBlockHeightWithTran (env : Env) (tId : GoString) (w : World) :
    (Int × Int) × World :=
  (env.locate w.ledger tId,
    { w with trace := w.trace ++ [Event.locateBlockHeightWithTran] })

/-- Modelled from the spec: `chain.PackCrossReceipt`, the read-only
`packReceipt(transfer, height, sequence)` of spec section 4.4. -/
def PackCrossReceipt (env : Env) (ct : CrossTran) (blockHeight sequence : Int) (w : World) :
    CrossTranReceipt × World :=
  (env.packReceipt w.ledger ct blockHeight sequence,
    { w with trace := w.trace ++ [Event.packCrossReceipt] })

/-! ## The handlers of `tcp.go` -/

/-- `handleTcpPing` (tcp.go 222-230). -/
def handleTcpPing (env : Env) (_msg : TcpMessage) (w : World) : Except GoPanic World :=
  let resp : TcpMessage := { Typ := env.TcpPong, Content := [] }
  let respByte := env.marshalTcpMessage resp
  .ok (connWrite respByte w)

/-- `handleTcpAbstractHeader` (tcp.go 191-220). The decode error is only
logged; `rbhs[0]` panics on an empty slice. -/
def handleTcpAbstractHeader (env : Env) (msg : TcpMessage) (w : World) : Except GoPanic World :=
  let remoteBH := msg.Content
  let rbhs := (env.unmarshalHeaders remoteBH).1
  match sliceIndex rbhs 0 with
  | none => .error (GoPanic.indexOutOfRange 0 rbhs.length)
  | some first =>
    let chainId := first.ChainId
    let key := env.RemoteHeadersKey ++ chainId
    let w := SetIntoRedis key remoteBH w
    let r := GetLocalAbstractBlockChainHeaders env env.LocalChainId2 w
    let LocalAHs := r.1
    let w := r.2
    let LocalChainAbstractHByte := env.marshalHeaders LocalAHs
    let resp : TcpMessage :=
      { Typ := env.TcpAbstractHeader, Content := LocalChainAbstractHByte }
    let respByte := env.marshalTcpMessage resp
    .ok (connWrite respByte w)

/-- `handleRemoteCrossTransfer` (tcp.go 109-188). The store and decode errors
are only logged; `abHs[ct.Proof.Height]` panics when the height is not an
index of the decoded header slice. -/
def handleRemoteCrossTransfer (env : Env) (ct : CrossTran) (w : World) : Except GoPanic World :=
  let proof := ct.Proof
  let key := env.RemoteHeadersKey ++ ct.SourceChainId
  let abHsStr := (GetFromRedis key w).1
  let abHs := (env.unmarshalHeaders abHsStr).1
  match sliceIndex abHs ct.Proof.Height with
  | none => .error (GoPanic.indexOutOfRange ct.Proof.Height abHs.length)
  | some hdr =>
    let merkleRoot := hdr.MerkleRoot
    if env.VerifyTranExistence proof.TransHash proof.MerklePath proof.MerkleIndex merkleRoot then
      let newTx : Transaction :=
        { From := [], To := ct.To, Data := none, Value := ct.Value, Id := none }
      let newTxByte := env.marshalTransaction newTx
      let tId := env.CalculateHash newTxByte
      let newTx := { newTx with Id := some tId }
      let w := StoreCurrentTx newTx w
      let r := GetCurrentTxs w
      let curTXs := r.1
      let w := r.2
      let r := CreateNewBlock env curTXs w
      let newBlock := r.1
      let w := r.2
      let r := GetCurrentBlockChain w
      let curBlockChain := r.1
      let w := r.2
      let w := mutexLock w
      let curBlockChain := curBlockChain ++ [newBlock]
      let w := StoreBlockChain curBlockChain w
      let w := mutexUnlock w
      let w := ClearCurrentTxs w
      let r := GetLocalAbstractBlockChainHeaders env env.LocalChainId2 w
      let LocalAHs := r.1
      let w := r.2
      let LocalChainAbstractHByte := env.marshalHeaders LocalAHs
      let resp : TcpMessage :=
        { Typ := env.TcpAbstractHeader, Content := LocalChainAbstractHByte }
      let respByte := env.marshalTcpMessage resp
      let w := connWrite respByte w
      let r := LocateBlockHeightWithTran env tId w
      let blockHeight := r.1.1
      let sequence := r.1.2
      let w := r.2
      let r := PackCrossReceipt env ct blockHeight sequence w
      let packedTranReceipt := r.1
      let w := r.2
      let packedTranReceiptByte := env.marshalReceipt packedTranReceipt
      let receMess : TcpMessage :=
        { Typ := env.TcpCrossTransReceipt, Content := packedTranReceiptByte }
      let receMessByte := env.marshalTcpMessage receMess
      .ok (connWrite receMessByte w)
    else
      .ok w

/-- `handleTcpCrossTrans` (tcp.go 91-106). The decode error is only logged; a
transfer of any kind other than `CrossTranTransferType` is ignored. -/
def handleTcpCrossTrans (env : Env) (msg : TcpMessage) (w : World) : Except GoPanic World :=
  let tr := msg.Content
  let ct := (env.unmarshalCrossTran tr).1
  if ct.Typ = env.CrossTranTransferType then
    handleRemoteCrossTransfer env ct w
  else
    .ok w

/-- The `switch msgType` of `ServerConnHandler` (tcp.go 74-84); `inStr` is the
trimmed frame text, echoed by the default branch. -/
def serverDispatch (env : Env) (msg : TcpMessage) (inStr : GoString) (w : World) :
    Except GoPanic World :=
  let msgType := msg.Typ
  if msgType = env.TcpPing then
    handleTcpPing env msg w
  else if msgType = env.TcpAbstractHeader then
    handleTcpAbstractHeader env msg w
  else if msgType = env.TcpCrossTrans then
    handleTcpCrossTrans env msg w
  else
    .ok (connWrite ("服务器端回复".toList ++ inStr ++ "\n".toList) w)

/-- One iteration of the read loop of `ServerConnHandler` after a successful
read (tcp.go 59-84): trim, decode (the error is only logged), dispatch. -/
def serverStep (env : Env) (frame : GoString) (w : World) : Except GoPanic World :=
  let inStr := trimSpace frame
  let msg := (env.unmarshalTcpMessage inStr).1
  serverDispatch env msg inStr w

/-- The result of one `c.Read(buf)`: the bytes read (`cnt` is their number)
and whether an error was returned. -/
structure ReadResult where
  data : GoString
  err : Bool
deriving DecidableEq, Repr

/-- `ServerConnHandler` (tcp.go 41-88) on a valid connection whose successive
reads return `reads`; once they are used up the next read returns zero bytes.
A panic in a handler ends the loop. -/
def ServerConnHandler (env : Env) : List ReadResult → World → Except GoPanic World
  | [], w => .ok w
  | r :: rest, w =>
    if r.data.length = 0 ∨ r.err = true then
      .ok w
    else
      match serverStep env r.data w with
      | .ok w1 => ServerConnHandler env rest w1
      | .error p => .error p

/-- `handleTcpPong` (tcp.go 378-380): logs only. -/
def handleTcpPong (_env : Env) (_msg : TcpMessage) (w : World) : Except GoPanic World :=
  .ok w

/-- `handleTcpAbstractHeaderResp` (tcp.go 359-376). The decode error is only
logged; `rbhs[0]` panics on an empty slice. -/
def handleTcpAbstractHeaderResp (env : Env) (msg : TcpMessage) (w : World) :
    Except GoPanic World :=
  let remoteBH := msg.Content
  let rbhs := (env.unmarshalHeaders remoteBH).1
  match sliceIndex rbhs 0 with
  | none => .error (GoPanic.indexOutOfRange 0 rbhs.length)
  | some first =>
    let chainId := first.ChainId
    let key := env.RemoteHeadersKey ++ chainId
    .ok (SetIntoRedis key remoteBH w)

/-- `handleTcpCrossTransReceipt` (tcp.go 326-357). Both outcomes of the
verification are only logged; `abHs[receipt.Proof.Height]` panics when the
height is not an index of the decoded header slice. -/
def handleTcpCrossTransReceipt (env : Env) (msg : TcpMessage) (w : World) :
    Except GoPanic World :=
  let receipt := (env.unmarshalReceipt msg.Content).1
  let proof := receipt.Proof
  let key := env.RemoteHeadersKey ++ receipt.SourceChainId
  let abHsStr := (GetFromRedis key w).1
  let abHs := (env.unmarshalHeaders abHsStr).1
  match sliceIndex abHs receipt.Proof.Height with
  | none => .error (GoPanic.indexOutOfRange receipt.Proof.Height abHs.length)
  | some hdr =>
    let merkleRoot := hdr.MerkleRoot
    if env.VerifyTranExistence proof.TransHash proof.MerklePath proof.MerkleIndex merkleRoot then
      .ok w
    else
      .ok w

/-- `ClientConnHandler` (tcp.go 281-324): write the request, read one response
(a read error is only logged), trim, decode, dispatch on the response kind. -/
def ClientConnHandler (env : Env) (msg : TcpMessage) (resp : ReadResult) (w : World) :
    Except GoPanic World :=
  let msgByte := env.marshalTcpMessage msg
  let w := connWrite msgByte w
  let inStr := trimSpace resp.data
  let r := (env.unmarshalTcpMessage inStr).1
  let respType := r.Typ
  if respType = env.TcpPong then
    handleTcpPong env r w
  else if respType = env.TcpAbstractHeader then
    handleTcpAbstractHeaderResp env r w
  else if respType = env.TcpCrossTransReceipt then
    handleTcpCrossTransReceipt env r w
  else
    .ok w

/-! ## Vocabulary of the statements -/

/-- The header sequence a handler reads back for `chainId`: the stored text
under `RemoteHeadersKey ++ chainId` (empty when the key is missing), decoded. -/
def storedHeaders (env : Env) (chainId : GoString) (w : World) : List AbstractBlockHeader :=
  (env.unmarshalHeaders (GetFromRedis (env.RemoteHeadersKey ++ chainId) w).1).1

/-- The content-addressed id the transfer handler computes for the local
transaction of a transfer: the hash of the encoded transaction without id. -/
def settlementTxId (env : Env) (ct : CrossTran) : GoString :=
  env.CalculateHash (env.marshalTransaction
    { From := [], To := ct.To, Data := none, Value := ct.Value, Id := none })

/-- The local transaction the transfer handler enqueues for a transfer. -/
def settlementTx (env : Env) (ct : CrossTran) : Transaction :=
  { From := [], To := ct.To, Data := none, Value := ct.Value,
    Id := some (settlementTxId env ct) }

/-- The encoded `HEADER_SYNC` envelope carrying the local abstract headers of
ledger `l`. -/
def headerSyncEnvelope (env : Env) (l : Ledger) : GoString :=
  env.marshalTcpMessage
    { Typ := env.TcpAbstractHeader,
      Content := env.marshalHeaders (env.localAbstractHeaders l env.LocalChainId2) }

/-- The encoded `RECEIPT` envelope carrying `packReceipt(ct, blockHeight,
sequence)` for the settlement transaction of `ct`, located in ledger `l`. -/
def receiptEnvelope (env : Env) (l : Ledger) (ct : CrossTran) : GoString :=
  env.marshalTcpMessage
    { Typ := env.TcpCrossTransReceipt,
      Content := env.marshalReceipt
        (env.packReceipt l ct (env.locate l (settlementTxId env ct)).1
          (env.locate l (settlementTxId env ct)).2) }

/-- The critical-section discipline, in the words of spec section 5, on a
sequence of operations, starting with the mutex held or not (`held`): every
read of the pending pool or of the chain, the persist of the chain and the
clearing of the pool happen while the mutex is held. -/
def inCriticalSection : Bool → List Event → Bool
  | _, [] => true
  | held, e :: rest =>
    match e with
    | Event.mutexLock => inCriticalSection true rest
    | Event.mutexUnlock => inCriticalSection false rest
    | Event.getCurrentTxs => held && inCriticalSection held rest
    | Event.getCurrentBlockChain => held && inCriticalSection held rest
    | Event.storeBlockChain => held && inCriticalSection held rest
    | Event.clearCurrentTxs => held && inCriticalSection held rest
    | _ => inCriticalSection held rest

/-- The order the spec asks of a settlement: lock, read the pool and the
chain, persist the new chain, clear the pool, unlock. -/
def specSettlementOrder : List Event :=
  [Event.mutexLock, Event.getCurrentTxs, Event.getCurrentBlockChain,
   Event.storeBlockChain, Event.clearCurrentTxs, Event.mutexUnlock]

/-- The pool, chain and mutex operations of a sequence, in order. -/
def settlementOps (evs : List Event) : List Event :=
  evs.filter (fun e => decide (e ∈ specSettlementOrder))

/-! ## Two settlements side by side

The settlement statements of `handleRemoteCrossTransfer` (tcp.go 140-158), one
step per statement, so that the steps of two handler activations (two
connections, one goroutine each) can be interleaved on the shared ledger. -/

/-- The statements of the settlement, in source order: `chain.StoreCurrentTx`,
`chain.GetCurrentTxs`, `chain.CreateNewBlock`, `chain.GetCurrentBlockChain`,
`mutex.Lock`, `append` with `chain.StoreBlockChain`, `mutex.Unlock`,
`chain.ClearCurrentTxs`. -/
inductive SettleStep where
  | storeCurrentTx
  | getCurrentTxs
  | createNewBlock
  | getCurrentBlockChain
  | lock
  | appendAndStore
  | unlock
  | clearCurrentTxs
deriving DecidableEq, Repr

/-- The local variables of one activation of the transfer handler. -/
structure Locals where
  newTx : Transaction
  curTXs : List Transaction
  newBlock : Block
  curBlockChain : List Block
deriving DecidableEq, Repr

/-- One settlement statement of one activation, on its locals and the shared
state. -/
def settleStep (env : Env) (s : SettleStep) (l : Locals) (w : World) : Locals × World :=
  match s with
  | SettleStep.storeCurrentTx => (l, StoreCurrentTx l.newTx w)
  | SettleStep.getCurrentTxs => ({ l with curTXs := (GetCurrentTxs w).1 }, (GetCurrentTxs w).2)
  | SettleStep.createNewBlock =>
    ({ l with newBlock := (CreateNewBlock env l.curTXs w).1 }, (CreateNewBlock env l.curTXs w).2)
  | SettleStep.getCurrentBlockChain =>
    ({ l with curBlockChain := (GetCurrentBlockChain w).1 }, (GetCurrentBlockChain w).2)
  | SettleStep.lock => (l, mutexLock w)
  | SettleStep.appendAndStore =>
    ({ l with curBlockChain := l.curBlockChain ++ [l.newBlock] },
      StoreBlockChain (l.curBlockChain ++ [l.newBlock]) w)
  | SettleStep.unlock => (l, mutexUnlock w)
  | SettleStep.clearCurrentTxs => (l, ClearCurrentTxs w)

/-- The settlement of one activation: its statements in source order. -/
def settleProgram : List SettleStep :=
  [SettleStep.storeCurrentTx, SettleStep.getCurrentTxs, SettleStep.createNewBlock,
   SettleStep.getCurrentBlockChain, SettleStep.lock, SettleStep.appendAndStore,
   SettleStep.unlock, SettleStep.clearCurrentTxs]

/-- The locals of an activation that is about to settle `tx`. -/
def startLocals (tx : Transaction) : Locals :=
  { newTx := tx, curTXs := [], newBlock := { txs := [], stamp := [] }, curBlockChain := [] }

/-- Run the statements of one activation one after the other. -/
def runSteps (env : Env) : List SettleStep → Locals → World → Locals × World
  | [], l, w => (l, w)
  | s :: rest, l, w => runSteps env rest (settleStep env s l w).1 (settleStep env s l w).2

/-- Run a schedule of two activations: `(false, s)` is statement `s` of the
first, `(true, s)` of the second. -/
def runSchedule (env : Env) :
    List (Bool × SettleStep) → Locals × Locals → World → (Locals × Locals) × World
  | [], ls, w => (ls, w)
  | (false, s) :: rest, ls, w =>
    runSchedule env rest ((settleStep env s ls.1 w).1, ls.2) (settleStep env s ls.1 w).2
  | (true, s) :: rest, ls, w =>
    runSchedule env rest (ls.1, (settleStep env s ls.2 w).1) (settleStep env s ls.2 w).2

/-- The statements a schedule gives to one of the two activations, in order. -/
def stepsOf (who : Bool) (sched : List (Bool × SettleStep)) : List SettleStep :=
  (sched.filter (fun x => x.1 == who)).map (fun x => x.2)

/-- Mutual exclusion on a sequence of operations: the mutex is acquired only
when free and released only when held. -/
def mutexRespected : Bool → List Event → Bool
  | _, [] => true
  | held, Event.mutexLock :: rest => !held && mutexRespected true rest
  | held, Event.mutexUnlock :: rest => held && mutexRespected false rest
  | held, _ :: rest => mutexRespected held rest

/-- A schedule of two settlements in which both activations read the pool and
the chain before either of them takes the mutex. -/
def racingSchedule : List (Bool × SettleStep) :=
  [(false, SettleStep.storeCurrentTx), (true, SettleStep.storeCurrentTx),
   (false, SettleStep.getCurrentTxs), (false, SettleStep.createNewBlock),
   (false, SettleStep.getCurrentBlockChain),
   (true, SettleStep.getCurrentTxs), (true, SettleStep.createNewBlock),
   (true, SettleStep.getCurrentBlockChain),
   (false, SettleStep.lock), (false, SettleStep.appendAndStore), (false, SettleStep.unlock),
   (false, SettleStep.clearCurrentTxs),
   (true, SettleStep.lock), (true, SettleStep.appendAndStore), (true, SettleStep.unlock),
   (true, SettleStep.clearCurrentTxs)]

/-! ## A reference environment

A concrete `Env` over a small JSON codec, used to run the handlers on concrete
frames. The decoders follow `encoding/json`: a text that is not JSON leaves
the target at its zero value and reports an error; a member of the wrong JSON
type is skipped, the other members are still stored, and an error is
reported. -/

/-- JSON values: null, booleans, integers, strings, arrays, objects. -/
inductive JVal where
  | null
  | bool (b : Bool)
  | num (n : Int)
  | str (s : GoString)
  | arr (xs : List JVal)
  | obj (members : List (GoString × JVal))

/-- Drop leading JSON white space (space, tab, line feed, carriage return). -/
def skipWs : GoString → GoString
  | [] => []
  | c :: rest =>
    if c.toNat = 32 ∨ c.toNat = 9 ∨ c.toNat = 10 ∨ c.toNat = 13 then skipWs rest
    else c :: rest

/-- The character denoted by the escape `\c` inside a JSON string (the
`\uXXXX` form is not covered). -/
def unescape (c : Char) : Option Char :=
  if c.toNat = 34 then some (Char.ofNat 34)
  else if c.toNat = 92 then some (Char.ofNat 92)
  else if c.toNat = 47 then some (Char.ofNat 47)
  else if c = 'b' then some (Char.ofNat 8)
  else if c = 'f' then some (Char.ofNat 12)
  else if c = 'n' then some (Char.ofNat 10)
  else if c = 'r' then some (Char.ofNat 13)
  else if c = 't' then some (Char.ofNat 9)
  else none

/-- Read a JSON string after its opening quote: the decoded characters
(accumulated in reverse in `acc`) and the text after the closing quote. -/
def parseStringBody : GoString → GoString → Option (GoString × GoString)
  | [], _ => none
  | c :: rest, acc =>
    if c.toNat = 34 then some (acc.reverse, rest)
    else if c.toNat = 92 then
      match rest with
      | [] => none
      | e :: rest2 =>
        match unescape e with
        | some d => parseStringBody rest2 (d :: acc)
        | none => none
    else if c.toNat < 32 then none
    else parseStringBody rest (c :: acc)

/-- Read a run of decimal digits: their value (continuing from `acc`), how
many were read, and the text after them. -/
def parseDigits : GoString → Nat → Nat → Nat × Nat × GoString
  | [], acc, k => (acc, k, [])
  | c :: rest, acc, k =>
    if 48 ≤ c.toNat ∧ c.toNat ≤ 57 then parseDigits rest (acc * 10 + (c.toNat - 48)) (k + 1)
    else (acc, k, c :: rest)

/-- Read a JSON integer. -/
def parseNumber (s : GoString) : Option (Int × GoString) :=
  match s with
  | [] => none
  | c :: rest =>
    if c = '-' then
      match parseDigits rest 0 0 with
      | (_, 0, _) => none
      | (n, _, r) => some (-(n : Int), r)
    else
      match parseDigits (c :: rest) 0 0 with
      | (_, 0, _) => none
      | (n, _, r) => some ((n : Int), r)

mutual

/-- Read one JSON value; `fuel` bounds the number of nested reads. -/
def parseValue : Nat → GoString → Option (JVal × GoString)
  | 0, _ => none
  | fuel + 1, s =>
    match skipWs s with
    | [] => none
    | c :: rest =>
      if c.toNat = 34 then
        match parseStringBody rest [] with
        | some (t, r) => some (JVal.str t, r)
        | none => none
      else if c.toNat = 91 then
        match skipWs rest with
        | [] => none
        | d :: rest2 =>
          if d.toNat = 93 then some (JVal.arr [], rest2)
          else
            match parseElems fuel (d :: rest2) with
            | some (xs, r) => some (JVal.arr xs, r)
            | none => none
      else if c.toNat = 123 then
        match skipWs rest with
        | [] => none
        | d :: rest2 =>
          if d.toNat = 125 then some (JVal.obj [], rest2)
          else
            match parseMembers fuel (d :: rest2) with
            | some (ms, r) => some (JVal.obj ms, r)
            | none => none
      else if c = 'n' then
        match rest with
        | 'u' :: 'l' :: 'l' :: r => some (JVal.null, r)
        | _ => none
      else if c = 't' then
        match rest with
        | 'r' :: 'u' :: 'e' :: r => some (JVal.bool true, r)
        | _ => none
      else if c = 'f' then
        match rest with
        | 'a' :: 'l' :: 's' :: 'e' :: r => some (JVal.bool false, r)
        | _ => none
      else
        match parseNumber (c :: rest) with
        | some (n, r) => some (JVal.num n, r)
        | none => none

/-- Read the elements of a non-empty JSON array, up to and including its
closing bracket. -/
def parseElems : Nat → GoString → Option (List JVal × GoString)
  | 0, _ => none
  | fuel + 1, s =>
    match parseValue fuel s with
    | none => none
    | some (v, r) =>
      match skipWs r with
      | [] => none
      | c :: rest =>
        if c.toNat = 93 then some ([v], rest)
        else if c = ',' then
          match parseElems fuel rest with
          | some (vs, r2) => some (v :: vs, r2)
          | none => none
        else none

/-- Read the members of a non-empty JSON object, up to and including its
closing brace. -/
def parseMembers : Nat → GoString → Option (List (GoString × JVal) × GoString)
  | 0, _ => none
  | fuel + 1, s =>
    match skipWs s with
    | [] => none
    | q :: afterQ =>
      if q.toNat = 34 then
        match parseStringBody afterQ [] with
        | none => none
        | some (key, r0) =>
          match skipWs r0 with
          | [] => none
          | colon :: r1 =>
            if colon = ':' then
              match parseValue fuel r1 with
              | none => none
              | some (v, r) =>
                match skipWs r with
                | [] => none
                | c :: rest =>
                  if c.toNat = 125 then some ([(key, v)], rest)
                  else if c = ',' then
                    match parseMembers fuel rest with
                    | some (ms, r2) => some ((key, v) :: ms, r2)
                    | none => none
                  else none
            else none
      else none

end

/-- Read a whole text as one JSON value. -/
def parseJson (s : GoString) : Option JVal :=
  match parseValue (s.length + 1) s with
  | some (v, r) => if skipWs r = [] then some v else none
  | none => none

/-- The member of an object stored under `key`. -/
def member (key : GoString) : List (GoString × JVal) → Option JVal
  | [] => none
  | (k, v) :: rest => if k = key then some v else member key rest

/-- Store a JSON value into a Go `string` holding `cur`. -/
def decodeString (cur : GoString) : Option JVal → GoString × Bool
  | none => (cur, false)
  | some JVal.null => (cur, false)
  | some (JVal.str s) => (s, false)
  | some _ => (cur, true)

/-- Store a JSON value into a Go integer holding `cur`. -/
def decodeInt (cur : Int) : Option JVal → Int × Bool
  | none => (cur, false)
  | some JVal.null => (cur, false)
  | some (JVal.num n) => (n, false)
  | some _ => (cur, true)

/-- Store a JSON value into a Go slice of strings holding `cur`. -/
def decodeStrings (cur : List GoString) : Option JVal → List GoString × Bool
  | none => (cur, false)
  | some JVal.null => (cur, false)
  | some (JVal.arr xs) =>
    (xs.map (fun x => (decodeString [] (some x)).1),
      xs.any (fun x => (decodeString [] (some x)).2))
  | some _ => (cur, true)

/-- Store a JSON value into a `TcpMessage` holding `cur`. -/
def decodeTcpMessage (cur : TcpMessage) : Option JVal → TcpMessage × Bool
  | none => (cur, false)
  | some JVal.null => (cur, false)
  | some (JVal.obj ms) =>
    let t := decodeInt cur.Typ (member "type".toList ms)
    let c := decodeString cur.Content (member "content".toList ms)
    ({ Typ := t.1, Content := c.1 }, t.2 || c.2)
  | some _ => (cur, true)

/-- Store a JSON value into an `AbstractBlockHeader` holding `cur`. -/
def decodeHeader (cur : AbstractBlockHeader) : Option JVal → AbstractBlockHeader × Bool
  | none => (cur, false)
  | some JVal.null => (cur, false)
  | some (JVal.obj ms) =>
    let c := decodeString cur.ChainId (member "chainId".toList ms)
    let h := decodeInt cur.Height (member "height".toList ms)
    let r := decodeString cur.MerkleRoot (member "merkleRoot".toList ms)
    ({ ChainId := c.1, Height := h.1, MerkleRoot := r.1 }, c.2 || h.2 || r.2)
  | some _ => (cur, true)

/-- Store a JSON value into a slice of headers holding `cur`. -/
def decodeHeaders (cur : List AbstractBlockHeader) :
    Option JVal → List AbstractBlockHeader × Bool
  | none => (cur, false)
  | some JVal.null => ([], false)
  | some (JVal.arr xs) =>
    (xs.map (fun x => (decodeHeader ⟨[], 0, []⟩ (some x)).1),
      xs.any (fun x => (decodeHeader ⟨[], 0, []⟩ (some x)).2))
  | some _ => (cur, true)

/-- Store a JSON value into a `MerkleProof` holding `cur`. -/
def decodeProof (cur : MerkleProof) : Option JVal → MerkleProof × Bool
  | none => (cur, false)
  | some JVal.null => (cur, false)
  | some (JVal.obj ms) =>
    let t := decodeString cur.TransHash (member "transHash".toList ms)
    let p := decodeStrings cur.MerklePath (member "merklePath".toList ms)
    let i := decodeInt cur.MerkleIndex (member "merkleIndex".toList ms)
    let h := decodeInt cur.Height (member "height".toList ms)
    ({ TransHash := t.1, MerklePath := p.1, MerkleIndex := i.1, Height := h.1 },
      t.2 || p.2 || i.2 || h.2)
  | some _ => (cur, true)

/-- Store a JSON value into a `CrossTran` holding `cur`. -/
def decodeCrossTran (cur : CrossTran) : Option JVal → CrossTran × Bool
  | none => (cur, false)
  | some JVal.null => (cur, false)
  | some (JVal.obj ms) =>
    let t := decodeInt cur.Typ (member "type".toList ms)
    let s := decodeString cur.SourceChainId (member "sourceChainId".toList ms)
    let d := decodeString cur.To (member "to".toList ms)
    let v := decodeInt cur.Value (member "value".toList ms)
    let p := decodeProof cur.Proof (member "proof".toList ms)
    ({ Typ := t.1, SourceChainId := s.1, To := d.1, Value := v.1, Proof := p.1 },
      t.2 || s.2 || d.2 || v.2 || p.2)
  | some _ => (cur, true)

/-- Store a JSON value into a `CrossTranReceipt` holding `cur`. -/
def decodeReceipt (cur : CrossTranReceipt) : Option JVal → CrossTranReceipt × Bool
  | none => (cur, false)
  | some JVal.null => (cur, false)
  | some (JVal.obj ms) =>
    let s := decodeString cur.SourceChainId (member "sourceChainId".toList ms)
    let p := decodeProof cur.Proof (member "proof".toList ms)
    ({ SourceChainId := s.1, Proof := p.1 }, s.2 || p.2)
  | some _ => (cur, true)

/-- The call `json.Unmarshal(text, &v)` on a zero-valued `v`, given the store
function of the type of `v`: the value left in `v` and the error flag. -/
def unmarshalWith {α : Type} (zero : α) (store : α → Option JVal → α × Bool)
    (text : GoString) : α × Bool :=
  match parseJson text with
  | none => (zero, true)
  | some v => store zero (some v)

/-- Escape a string for a JSON string literal (quote, backslash, line feed). -/
def escapeString : GoString → GoString
  | [] => []
  | c :: rest =>
    if c.toNat = 34 ∨ c.toNat = 92 then Char.ofNat 92 :: c :: escapeString rest
    else if c.toNat = 10 then Char.ofNat 92 :: 'n' :: escapeString rest
    else c :: escapeString rest

/-- A JSON string literal. -/
def renderString (s : GoString) : GoString :=
  Char.ofNat 34 :: escapeString s ++ [Char.ofNat 34]

/-- A JSON integer. -/
def renderInt (n : Int) : GoString :=
  if n < 0 then '-' :: Nat.toDigits 10 n.natAbs else Nat.toDigits 10 n.toNat

/-- Join rendered items with commas. -/
def joinComma : List GoString → GoString
  | [] => []
  | [x] => x
  | x :: y :: rest => x ++ ',' :: joinComma (y :: rest)

/-- The text of `json.Marshal` on a `TcpMessage`. -/
def renderTcpMessage (m : TcpMessage) : GoString :=
  "\x7b\"type\":".toList ++ renderInt m.Typ ++ ",\"content\":".toList ++
    renderString m.Content ++ "\x7d".toList

/-- The text of `json.Marshal` on an `AbstractBlockHeader`. -/
def renderHeader (h : AbstractBlockHeader) : GoString :=
  "\x7b\"chainId\":".toList ++ renderString h.ChainId ++ ",\"height\":".toList ++
    renderInt h.Height ++ ",\"merkleRoot\":".toList ++ renderString h.MerkleRoot ++
    "\x7d".toList

/-- The text of `json.Marshal` on a slice of headers (`null` for a nil slice). -/
def renderHeaders (hs : List AbstractBlockHeader) : GoString :=
  match hs with
  | [] => "null".toList
  | _ => '[' :: joinComma (hs.map renderHeader) ++ [']']

/-- The text of `json.Marshal` on a `MerkleProof`. -/
def renderProof (p : MerkleProof) : GoString :=
  "\x7b\"transHash\":".toList ++ renderString p.TransHash ++ ",\"merklePath\":[".toList ++
    joinComma (p.MerklePath.map renderString) ++ "],\"merkleIndex\":".toList ++
    renderInt p.MerkleIndex ++ ",\"height\":".toList ++ renderInt p.Height ++ "\x7d".toList

/-- The text of `json.Marshal` on a `CrossTranReceipt`. -/
def renderReceipt (r : CrossTranReceipt) : GoString :=
  "\x7b\"sourceChainId\":".toList ++ renderString r.SourceChainId ++ ",\"proof\":".toList ++
    renderProof r.Proof ++ "\x7d".toList

/-- The text of `json.Marshal` on a `Transaction`. -/
def renderTransaction (t : Transaction) : GoString :=
  "\x7b\"from\":".toList ++ renderString t.From ++ ",\"to\":".toList ++ renderString t.To ++
    ",\"data\":".toList ++ (match t.Data with | some d => renderString d | none => "null".toList) ++
    ",\"value\":".toList ++ renderInt t.Value ++
    ",\"id\":".toList ++ (match t.Id with | some d => renderString d | none => "null".toList) ++
    "\x7d".toList

/-- A stand-in for `merkle.VerifyTranExistence`: the root must be the leaf hash
followed by the sibling hashes of the path. -/
def refVerify (transHash : GoString) (path : List GoString) (_index : Int)
    (root : GoString) : Bool :=
  decide (path.foldl (fun acc sib => acc ++ sib) transHash = root)

/-- A stand-in for the Merkle root of a block: the transaction ids in order. -/
def refBlockRoot (b : Block) : GoString :=
  b.txs.foldl (fun acc t => acc ++ t.Id.getD []) []

/-- A stand-in for the local abstract headers: one header per block, numbered
from zero. -/
def refLocalHeaders (chainId : GoString) : Nat → List Block → List AbstractBlockHeader
  | _, [] => []
  | i, b :: rest =>
    { ChainId := chainId, Height := (i : Int), MerkleRoot := refBlockRoot b } ::
      refLocalHeaders chainId (i + 1) rest

/-- The position of the first transaction with id `tId` in a block. -/
def refLocateInBlock (tId : GoString) : Nat → List Transaction → Option Nat
  | _, [] => none
  | i, t :: rest => if t.Id = some tId then some i else refLocateInBlock tId (i + 1) rest

/-- A stand-in for `chain.LocateBlockHeightWithTran`: the height of the first
block holding the transaction and its position there, `(-1, -1)` if absent. -/
def refLocate (tId : GoString) : Nat → List Block → Int × Int
  | _, [] => (-1, -1)
  | i, b :: rest =>
    match refLocateInBlock tId 0 b.txs with
    | some k => ((i : Int), (k : Int))
    | none => refLocate tId (i + 1) rest

/-- The id of the transaction at position `k` of block `h`, empty if there is
none. -/
def refTxIdAt (chain : List Block) (h k : Int) : GoString :=
  match sliceIndex chain h with
  | none => []
  | some b =>
    match sliceIndex b.txs k with
    | none => []
    | some t => t.Id.getD []

/-- The reference environment. -/
def refEnv : Env where
  TcpPing := 0
  TcpPong := 1
  TcpAbstractHeader := 2
  TcpCrossTrans := 3
  TcpCrossTransReceipt := 4
  CrossTranTransferType := 0
  RemoteHeadersKey := "remoteHeaders_".toList
  LocalChainId2 := "chain2".toList
  unmarshalTcpMessage := unmarshalWith ⟨0, []⟩ decodeTcpMessage
  unmarshalCrossTran := unmarshalWith ⟨0, [], [], 0, ⟨[], [], 0, 0⟩⟩ decodeCrossTran
  unmarshalHeaders := unmarshalWith [] decodeHeaders
  unmarshalReceipt := unmarshalWith ⟨[], ⟨[], [], 0, 0⟩⟩ decodeReceipt
  marshalTcpMessage := renderTcpMessage
  marshalHeaders := renderHeaders
  marshalReceipt := renderReceipt
  marshalTransaction := renderTransaction
  CalculateHash := fun b => '#' :: b
  VerifyTranExistence := refVerify
  buildBlock := fun txs => { txs := txs, stamp := [] }
  localAbstractHeaders := fun l chainId => refLocalHeaders chainId 0 l.chain
  locate := fun l tId => refLocate tId 0 l.chain
  packReceipt := fun l _ h k =>
    { SourceChainId := "chain2".toList,
      Proof := { TransHash := refTxIdAt l.chain h k, MerklePath := [], MerkleIndex := k, Height := h } }

/-- The stored text of chain `A`, two headers. -/
def headersA : GoString :=
  ("[\x7b\"chainId\":\"A\",\"height\":0,\"merkleRoot\":\"r0\"\x7d," ++
    "\x7b\"chainId\":\"A\",\"height\":1,\"merkleRoot\":\"t1s1\"\x7d]").toList

/-- A responder with an empty ledger that has synced the headers of chain `A`. -/
def worldA : World where
  ledger := { chain := [], pending := [] }
  store := fun k => if k = "remoteHeaders_A".toList then some headersA else none
  out := []
  trace := []

/-- A transfer from chain `A` proved against its header 1. -/
def transferA : GoString :=
  ("\x7b\"type\":0,\"sourceChainId\":\"A\",\"to\":\"bob\",\"value\":5,\"proof\":" ++
    "\x7b\"transHash\":\"t1\",\"merklePath\":[\"s1\"],\"merkleIndex\":0,\"height\":1\x7d\x7d").toList

/-- The decoded `transferA`. -/
def ctA : CrossTran :=
  { Typ := 0, SourceChainId := "A".toList, To := "bob".toList, Value := 5,
    Proof := { TransHash := "t1".toList, MerklePath := ["s1".toList], MerkleIndex := 0,
               Height := 1 } }

/-- The header of chain `A` at height 1, as stored in `worldA`. -/
def headerA1 : AbstractBlockHeader :=
  { ChainId := "A".toList, Height := 1, MerkleRoot := "t1s1".toList }

/-- The decoded `transferHigh`. -/
def ctHigh : CrossTran :=
  { ctA with Proof := { ctA.Proof with Height := 2 } }

/-- A receipt from chain `B`, whose headers `worldA` has never synced. -/
def receiptB : GoString :=
  ("\x7b\"sourceChainId\":\"B\",\"proof\":" ++
    "\x7b\"transHash\":\"t9\",\"merklePath\":[],\"merkleIndex\":0,\"height\":0\x7d\x7d").toList

/-- The decoded `receiptB`. -/
def rcptB : CrossTranReceipt :=
  { SourceChainId := "B".toList,
    Proof := { TransHash := "t9".toList, MerklePath := [], MerkleIndex := 0, Height := 0 } }

/-- A frame that is JSON but no envelope: the content member is a number. The
decoder stores the kind 2 and reports an error. -/
def frameBadContent : GoString :=
  "\x7b\"type\":2,\"content\":5\x7d".toList

/-- A ping frame, with surrounding white space. -/
def framePing : GoString :=
  " \x7b\"type\":0,\"content\":\"\"\x7d\n".toList

/-- The transfer `transferA` with a tampered transaction hash. -/
def transferTampered : GoString :=
  ("\x7b\"type\":0,\"sourceChainId\":\"A\",\"to\":\"bob\",\"value\":5,\"proof\":" ++
    "\x7b\"transHash\":\"tX\",\"merklePath\":[\"s1\"],\"merkleIndex\":0,\"height\":1\x7d\x7d").toList

/-- The transfer `transferA` with a proof height past the stored headers. -/
def transferHigh : GoString :=
  ("\x7b\"type\":0,\"sourceChainId\":\"A\",\"to\":\"bob\",\"value\":5,\"proof\":" ++
    "\x7b\"transHash\":\"t1\",\"merklePath\":[\"s1\"],\"merkleIndex\":0,\"height\":2\x7d\x7d").toList

/-! ## Theorems -/

set_option maxRecDepth 100000

section Lemmas

theorem sliceIndex_of_get {α : Type} (xs : List α) (i : Int) (x : α)
    (h0 : 0 ≤ i) (h : xs.get? i.toNat = some x) : sliceIndex xs i = some x := by
  unfold sliceIndex
  rw [if_neg (not_lt.mpr h0)]
  exact h

theorem sliceIndex_out_of_range {α : Type} (xs : List α) (i : Int)
    (h : ¬ (0 ≤ i ∧ i < (xs.length : Int))) : sliceIndex xs i = none := by
  unfold sliceIndex
  by_cases h0 : i < 0
  · rw [if_pos h0]
  · rw [if_neg h0]
    have h1 : (xs.length : Int) ≤ i := by
      by_contra hc
      exact h ⟨not_lt.mp h0, not_le.mp hc⟩
    have h2 : xs.length ≤ i.toNat := by omega
    exact List.get?_eq_none.mpr h2

/-- The transfer handler on a proof that indexes a stored header and
verifies: the exact final state. -/
theorem handleRemoteCrossTransfer_settles (env : Env) (ct : CrossTran) (w : World)
    (hdr : AbstractBlockHeader)
    (hlo : 0 ≤ ct.Proof.Height)
    (hidx : (storedHeaders env ct.SourceChainId w).get? ct.Proof.Height.toNat = some hdr)
    (hver : env.VerifyTranExistence ct.Proof.TransHash ct.Proof.MerklePath
      ct.Proof.MerkleIndex hdr.MerkleRoot = true) :
    handleRemoteCrossTransfer env ct w =
      .ok { ledger :=
              { chain := w.ledger.chain ++ [env.buildBlock (w.ledger.pending ++ [settlementTx env ct])],
                pending := [] }
            store := w.store
            out := w.out ++
              [headerSyncEnvelope env
                { chain := w.ledger.chain ++ [env.buildBlock (w.ledger.pending ++ [settlementTx env ct])],
                  pending := [] },
               receiptEnvelope env
                { chain := w.ledger.chain ++ [env.buildBlock (w.ledger.pending ++ [settlementTx env ct])],
                  pending := [] } ct]
            trace := w.trace ++
              [Event.storeCurrentTx, Event.getCurrentTxs, Event.createNewBlock,
               Event.getCurrentBlockChain, Event.mutexLock, Event.storeBlockChain,
               Event.mutexUnlock, Event.clearCurrentTxs,
               Event.getLocalAbstractBlockChainHeaders, Event.locateBlockHeightWithTran,
               Event.packCrossReceipt] } := by
  have hs := sliceIndex_of_get _ _ _ hlo hidx
  unfold storedHeaders at hs
  unfold handleRemoteCrossTransfer
  simp only [hs, hver, if_true]
  simp [StoreCurrentTx, GetCurrentTxs, CreateNewBlock, GetCurrentBlockChain, mutexLock,
    StoreBlockChain, mutexUnlock, ClearCurrentTxs, GetLocalAbstractBlockChainHeaders,
    connWrite, LocateBlockHeightWithTran, PackCrossReceipt, headerSyncEnvelope,
    receiptEnvelope, settlementTx, settlementTxId]

/-- The header-sync request handler on a payload that decodes to a non-empty
sequence: the exact final state. -/
theorem handleTcpAbstractHeader_stores (env : Env) (msg : TcpMessage) (w : World)
    (first : AbstractBlockHeader) (rest : List AbstractBlockHeader)
    (hdec : (env.unmarshalHeaders msg.Content).1 = first :: rest) :
    handleTcpAbstractHeader env msg w =
      .ok { ledger := w.ledger
            store := fun k =>
              if k = env.RemoteHeadersKey ++ first.ChainId then some msg.Content else w.store k
            out := w.out ++ [headerSyncEnvelope env w.ledger]
            trace := w.trace ++ [Event.getLocalAbstractBlockChainHeaders] } := by
  unfold handleTcpAbstractHeader
  simp [hdec, sliceIndex, SetIntoRedis, GetLocalAbstractBlockChainHeaders, connWrite,
    headerSyncEnvelope]

/-- The header-sync response handler on a payload that decodes to a non-empty
sequence: the exact final state. -/
theorem handleTcpAbstractHeaderResp_stores (env : Env) (msg : TcpMessage) (w : World)
    (first : AbstractBlockHeader) (rest : List AbstractBlockHeader)
    (hdec : (env.unmarshalHeaders msg.Content).1 = first :: rest) :
    handleTcpAbstractHeaderResp env msg w =
      .ok { ledger := w.ledger
            store := fun k =>
              if k = env.RemoteHeadersKey ++ first.ChainId then some msg.Content else w.store k
            out := w.out
            trace := w.trace } := by
  unfold handleTcpAbstractHeaderResp
  simp [hdec, sliceIndex, SetIntoRedis]

/-- One successful read is handled by `serverStep`, and the loop goes on with
the remaining reads. -/
theorem ServerConnHandler_cons_ok (env : Env) (r : ReadResult) (rest : List ReadResult)
    (w w1 : World) (hdata : r.data ≠ []) (herr : r.err = false)
    (hstep : serverStep env r.data w = .ok w1) :
    ServerConnHandler env (r :: rest) w = ServerConnHandler env rest w1 := by
  have hlen : ¬ (r.data.length = 0 ∨ r.err = true) := by
    simp [herr, hdata]
  simp only [ServerConnHandler, if_neg hlen, hstep]

/-- A panic while handling one successful read ends the loop with that panic. -/
theorem ServerConnHandler_cons_panic (env : Env) (r : ReadResult) (rest : List ReadResult)
    (w : World) (p : GoPanic) (hdata : r.data ≠ []) (herr : r.err = false)
    (hstep : serverStep env r.data w = .error p) :
    ServerConnHandler env (r :: rest) w = .error p := by
  have hlen : ¬ (r.data.length = 0 ∨ r.err = true) := by
    simp [herr, hdata]
  simp only [ServerConnHandler, if_neg hlen, hstep]

/-- The header-sync request handler on a payload that leaves the decoded slice
empty. -/
theorem handleTcpAbstractHeader_panics_on_empty (env : Env) (msg : TcpMessage) (w : World)
    (hdec : (env.unmarshalHeaders msg.Content).1 = []) :
    handleTcpAbstractHeader env msg w = .error (GoPanic.indexOutOfRange 0 0) := by
  unfold handleTcpAbstractHeader
  simp [hdec, sliceIndex]

/-- The statements of `settleProgram`, run in order by one activation, are the
settlement of the transfer handler: same ledger, same operations. -/
theorem settleProgram_is_handler_settlement (env : Env) (ct : CrossTran) (w : World)
    (hdr : AbstractBlockHeader)
    (hlo : 0 ≤ ct.Proof.Height)
    (hidx : (storedHeaders env ct.SourceChainId w).get? ct.Proof.Height.toNat = some hdr)
    (hver : env.VerifyTranExistence ct.Proof.TransHash ct.Proof.MerklePath
      ct.Proof.MerkleIndex hdr.MerkleRoot = true) :
    ∃ w1 : World, handleRemoteCrossTransfer env ct w = .ok w1 ∧
      w1.ledger = (runSteps env settleProgram (startLocals (settlementTx env ct)) w).2.ledger ∧
      w1.trace = (runSteps env settleProgram (startLocals (settlementTx env ct)) w).2.trace ++
        [Event.getLocalAbstractBlockChainHeaders, Event.locateBlockHeightWithTran,
         Event.packCrossReceipt] := by
  refine ⟨_, handleRemoteCrossTransfer_settles env ct w hdr hlo hidx hver, ?_, ?_⟩
  · simp [settleProgram, runSteps, settleStep, startLocals, StoreCurrentTx, GetCurrentTxs,
      CreateNewBlock, GetCurrentBlockChain, mutexLock, StoreBlockChain, mutexUnlock,
      ClearCurrentTxs]
  · simp [settleProgram, runSteps, settleStep, startLocals, StoreCurrentTx, GetCurrentTxs,
      CreateNewBlock, GetCurrentBlockChain, mutexLock, StoreBlockChain, mutexUnlock,
      ClearCurrentTxs]

/-- Two settlements interleaved as in `racingSchedule`: each activation runs
its statements in source order and the mutex is never taken while held, yet
the chain grows by one block only, the block of the second activation. -/
theorem racing_settlements_lose_a_block (env : Env) (w : World) (txA txB : Transaction) :
    stepsOf false racingSchedule = settleProgram ∧
      stepsOf true racingSchedule = settleProgram ∧
      (runSchedule env racingSchedule (startLocals txA, startLocals txB) w).2.ledger.chain =
        w.ledger.chain ++ [env.buildBlock (w.ledger.pending ++ [txA, txB])] ∧
      (runSchedule env racingSchedule (startLocals txA, startLocals txB)
          w).2.ledger.chain.length = w.ledger.chain.length + 1 ∧
      mutexRespected false
        (((runSchedule env racingSchedule (startLocals txA, startLocals txB) w).2.trace).drop
          w.trace.length) = true := by
  refine ⟨by decide, by decide, ?_, ?_, ?_⟩
  · simp [racingSchedule, runSchedule, settleStep, startLocals, StoreCurrentTx, GetCurrentTxs,
      CreateNewBlock, GetCurrentBlockChain, mutexLock, StoreBlockChain, mutexUnlock,
      ClearCurrentTxs]
  · simp [racingSchedule, runSchedule, settleStep, startLocals, StoreCurrentTx, GetCurrentTxs,
      CreateNewBlock, GetCurrentBlockChain, mutexLock, StoreBlockChain, mutexUnlock,
      ClearCurrentTxs]
  · simp [racingSchedule, runSchedule, settleStep, startLocals, StoreCurrentTx, GetCurrentTxs,
      CreateNewBlock, GetCurrentBlockChain, mutexLock, StoreBlockChain, mutexUnlock,
      ClearCurrentTxs, mutexRespected]

end Lemmas

/-- C1. Transfer success: a TRANSFER envelope carrying a transfer of transfer
kind whose proof height indexes the stored headers of its source chain, and
whose proof the Merkle verifier accepts against the root stored there, is
handled without a panic; afterwards the chain is the old chain followed by one
new block (built from the pending pool plus the settlement transaction), so
exactly one block longer, the pending pool is empty, the header store is
untouched, and exactly two envelopes were written: first the `HEADER_SYNC`
envelope with the local abstract headers, then the `RECEIPT` envelope with
`packReceipt(transfer, blockHeight, sequence)` of the settlement transaction. -/
theorem transfer_success (env : Env) (msg : TcpMessage) (w : World) (ct : CrossTran)
    (hdr : AbstractBlockHeader)
    (hct : (env.unmarshalCrossTran msg.Content).1 = ct)
    (hkind : ct.Typ = env.CrossTranTransferType)
    (hlo : 0 ≤ ct.Proof.Height)
    (hidx : (storedHeaders env ct.SourceChainId w).get? ct.Proof.Height.toNat = some hdr)
    (hver : env.VerifyTranExistence ct.Proof.TransHash ct.Proof.MerklePath
      ct.Proof.MerkleIndex hdr.MerkleRoot = true) :
    ∃ w1 : World, handleTcpCrossTrans env msg w = .ok w1 ∧
      handleRemoteCrossTransfer env ct w = .ok w1 ∧
      w1.ledger.chain =
        w.ledger.chain ++ [env.buildBlock (w.ledger.pending ++ [settlementTx env ct])] ∧
      w1.ledger.chain.length = w.ledger.chain.length + 1 ∧
      w1.ledger.pending = [] ∧
      w1.store = w.store ∧
      w1.out = w.out ++ [headerSyncEnvelope env w1.ledger, receiptEnvelope env w1.ledger ct] := by
  refine ⟨_, ?_, handleRemoteCrossTransfer_settles env ct w hdr hlo hidx hver, ?_⟩
  · unfold handleTcpCrossTrans
    simp only [hct, hkind, if_true]
    exact handleRemoteCrossTransfer_settles env ct w hdr hlo hidx hver
  · simp

/-- C1, at a concrete input: the responder `worldA` settles `transferA`. -/
theorem transfer_success_witness :
    ∃ w1 : World, handleTcpCrossTrans refEnv ⟨3, transferA⟩ worldA = .ok w1 ∧
      handleRemoteCrossTransfer refEnv ctA worldA = .ok w1 ∧
      w1.ledger.chain =
        worldA.ledger.chain ++
          [refEnv.buildBlock (worldA.ledger.pending ++ [settlementTx refEnv ctA])] ∧
      w1.ledger.chain.length = worldA.ledger.chain.length + 1 ∧
      w1.ledger.pending = [] ∧
      w1.store = worldA.store ∧
      w1.out = worldA.out ++
        [headerSyncEnvelope refEnv w1.ledger, receiptEnvelope refEnv w1.ledger ctA] :=
  transfer_success refEnv ⟨3, transferA⟩ worldA ctA headerA1
    (by decide) (by decide) (by decide) (by decide) (by decide)

/-- C2. The settlement is not one critical section: whenever the transfer
handler settles a transfer, the operations it issues are, in this order,
enqueue, read pending pool, build block, read chain, lock, persist chain,
unlock, clear pending pool (then the reads for the two replies). The pool and
the chain are read before the mutex is acquired and the pool is cleared after
it is released, so the sequence breaks the discipline `inCriticalSection` and
differs from the order the spec asks for. -/
theorem settlement_reads_outside_lock (env : Env) (msg : TcpMessage) (w : World)
    (ct : CrossTran) (hdr : AbstractBlockHeader)
    (hct : (env.unmarshalCrossTran msg.Content).1 = ct)
    (hkind : ct.Typ = env.CrossTranTransferType)
    (hlo : 0 ≤ ct.Proof.Height)
    (hidx : (storedHeaders env ct.SourceChainId w).get? ct.Proof.Height.toNat = some hdr)
    (hver : env.VerifyTranExistence ct.Proof.TransHash ct.Proof.MerklePath
      ct.Proof.MerkleIndex hdr.MerkleRoot = true) :
    ∃ (w1 : World) (evs : List Event), handleTcpCrossTrans env msg w = .ok w1 ∧
      w1.trace = w.trace ++ evs ∧
      evs = [Event.storeCurrentTx, Event.getCurrentTxs, Event.createNewBlock,
        Event.getCurrentBlockChain, Event.mutexLock, Event.storeBlockChain,
        Event.mutexUnlock, Event.clearCurrentTxs,
        Event.getLocalAbstractBlockChainHeaders, Event.locateBlockHeightWithTran,
        Event.packCrossReceipt] ∧
      inCriticalSection false evs = false ∧
      settlementOps evs ≠ specSettlementOrder := by
  have h : handleTcpCrossTrans env msg w = handleRemoteCrossTransfer env ct w := by
    unfold handleTcpCrossTrans
    simp only [hct, hkind, if_true]
  rw [h, handleRemoteCrossTransfer_settles env ct w hdr hlo hidx hver]
  exact ⟨_, _, rfl, rfl, rfl, by decide, by decide⟩

/-- C2, at a concrete input: the settlement of `transferA` on `worldA`. -/
theorem settlement_reads_outside_lock_witness :
    ∃ (w1 : World) (evs : List Event),
      handleTcpCrossTrans refEnv ⟨3, transferA⟩ worldA = .ok w1 ∧
      w1.trace = worldA.trace ++ evs ∧
      evs = [Event.storeCurrentTx, Event.getCurrentTxs, Event.createNewBlock,
        Event.getCurrentBlockChain, Event.mutexLock, Event.storeBlockChain,
        Event.mutexUnlock, Event.clearCurrentTxs,
        Event.getLocalAbstractBlockChainHeaders, Event.locateBlockHeightWithTran,
        Event.packCrossReceipt] ∧
      inCriticalSection false evs = false ∧
      settlementOps evs ≠ specSettlementOrder :=
  settlement_reads_outside_lock refEnv ⟨3, transferA⟩ worldA ctA headerA1
    (by decide) (by decide) (by decide) (by decide) (by decide)

/-- C3. Transfer failure is a silent drop: when the proof height of the
transfer carried by a TRANSFER envelope indexes the stored headers of its
source chain and the Merkle verifier rejects the proof against the root stored
there, the handler returns normally with the state exactly as it was: chain,
pending pool and header store unchanged and nothing written. -/
theorem transfer_failure_silent_drop (env : Env) (msg : TcpMessage) (w : World)
    (ct : CrossTran) (hdr : AbstractBlockHeader)
    (hct : (env.unmarshalCrossTran msg.Content).1 = ct)
    (hlo : 0 ≤ ct.Proof.Height)
    (hidx : (storedHeaders env ct.SourceChainId w).get? ct.Proof.Height.toNat = some hdr)
    (hver : env.VerifyTranExistence ct.Proof.TransHash ct.Proof.MerklePath
      ct.Proof.MerkleIndex hdr.MerkleRoot = false) :
    handleRemoteCrossTransfer env ct w = .ok w ∧ handleTcpCrossTrans env msg w = .ok w := by
  have hs := sliceIndex_of_get _ _ _ hlo hidx
  unfold storedHeaders at hs
  have h1 : handleRemoteCrossTransfer env ct w = .ok w := by
    unfold handleRemoteCrossTransfer
    simp [hs, hver]
  refine ⟨h1, ?_⟩
  unfold handleTcpCrossTrans
  simp only [hct]
  split
  · exact h1
  · rfl

/-- C3, at a concrete input: `transferTampered` on `worldA`. -/
theorem transfer_failure_silent_drop_witness :
    handleRemoteCrossTransfer refEnv
        { ctA with Proof := { ctA.Proof with TransHash := "tX".toList } } worldA = .ok worldA ∧
      handleTcpCrossTrans refEnv ⟨3, transferTampered⟩ worldA = .ok worldA :=
  transfer_failure_silent_drop refEnv ⟨3, transferTampered⟩ worldA
    { ctA with Proof := { ctA.Proof with TransHash := "tX".toList } } headerA1
    (by decide) (by decide) (by decide) (by decide)

/-- C4. An out-of-range proof height is not turned into a verification
failure: when the height carried by the proof is not an index of the header
sequence read back for the source chain (in particular when that sequence is
empty or missing), both the transfer handler and the receipt handler index the
slice out of bounds and panic. -/
theorem height_out_of_range_panics (env : Env) (w : World) :
    (∀ ct : CrossTran,
      ¬ (0 ≤ ct.Proof.Height ∧
          ct.Proof.Height < ((storedHeaders env ct.SourceChainId w).length : Int)) →
      handleRemoteCrossTransfer env ct w =
        .error (GoPanic.indexOutOfRange ct.Proof.Height
          (storedHeaders env ct.SourceChainId w).length)) ∧
    (∀ (msg : TcpMessage) (r : CrossTranReceipt),
      (env.unmarshalReceipt msg.Content).1 = r →
      ¬ (0 ≤ r.Proof.Height ∧
          r.Proof.Height < ((storedHeaders env r.SourceChainId w).length : Int)) →
      handleTcpCrossTransReceipt env msg w =
        .error (GoPanic.indexOutOfRange r.Proof.Height
          (storedHeaders env r.SourceChainId w).length)) := by
  constructor
  · intro ct h
    have hs := sliceIndex_out_of_range _ _ h
    unfold storedHeaders at hs ⊢
    unfold handleRemoteCrossTransfer
    simp [hs]
  · intro msg r hr h
    have hs := sliceIndex_out_of_range _ _ h
    unfold storedHeaders at hs ⊢
    unfold handleTcpCrossTransReceipt
    simp [hr, hs]

/-- C4, at concrete inputs: on `worldA`, which stores two headers of chain `A`
and none of chain `B`, the transfer `transferHigh` (height 2) and the receipt
`receiptB` (height 0 of an unsynced chain) both panic. -/
theorem height_out_of_range_panics_witness :
    handleRemoteCrossTransfer refEnv ctHigh worldA =
        .error (GoPanic.indexOutOfRange ctHigh.Proof.Height
          (storedHeaders refEnv ctHigh.SourceChainId worldA).length) ∧
      handleTcpCrossTransReceipt refEnv ⟨4, receiptB⟩ worldA =
        .error (GoPanic.indexOutOfRange rcptB.Proof.Height
          (storedHeaders refEnv rcptB.SourceChainId worldA).length) ∧
      (storedHeaders refEnv ctHigh.SourceChainId worldA).length = 2 ∧
      (storedHeaders refEnv rcptB.SourceChainId worldA).length = 0 ∧
      (refEnv.unmarshalCrossTran transferHigh) = (ctHigh, false) :=
  ⟨(height_out_of_range_panics refEnv worldA).1 ctHigh (by decide),
   (height_out_of_range_panics refEnv worldA).2 ⟨4, receiptB⟩ rcptB (by decide) (by decide),
   by decide, by decide, by decide⟩

/-- C5. Header-sync request: when the payload of a `HEADER_SYNC` envelope
decodes to a non-empty header sequence, `handleTcpAbstractHeader` returns
normally; afterwards the header store maps `RemoteHeadersKey ++ hs[0].chainId`
to exactly the received payload, every other key is as before, the ledger is
unchanged, and exactly one envelope was written, the `HEADER_SYNC` envelope
with the encoded local abstract headers of `LocalChainId2`. -/
theorem header_sync_request (env : Env) (msg : TcpMessage) (w : World)
    (first : AbstractBlockHeader) (rest : List AbstractBlockHeader)
    (hdec : (env.unmarshalHeaders msg.Content).1 = first :: rest) :
    ∃ w1 : World, handleTcpAbstractHeader env msg w = .ok w1 ∧
      w1.store (env.RemoteHeadersKey ++ first.ChainId) = some msg.Content ∧
      (∀ k : GoString, k ≠ env.RemoteHeadersKey ++ first.ChainId → w1.store k = w.store k) ∧
      w1.ledger = w.ledger ∧
      w1.out = w.out ++
        [env.marshalTcpMessage
          { Typ := env.TcpAbstractHeader,
            Content := env.marshalHeaders (env.localAbstractHeaders w.ledger env.LocalChainId2) }] := by
  refine ⟨_, handleTcpAbstractHeader_stores env msg w first rest hdec, ?_, ?_, rfl, rfl⟩
  · simp
  · intro k hk
    simp [hk]

/-- C5, at a concrete input: `worldA` receives the two headers of chain `A`
again. -/
theorem header_sync_request_witness :
    ∃ w1 : World, handleTcpAbstractHeader refEnv ⟨2, headersA⟩ worldA = .ok w1 ∧
      w1.store (refEnv.RemoteHeadersKey ++ "A".toList) = some headersA ∧
      (∀ k : GoString, k ≠ refEnv.RemoteHeadersKey ++ "A".toList →
        w1.store k = worldA.store k) ∧
      w1.ledger = worldA.ledger ∧
      w1.out = worldA.out ++
        [refEnv.marshalTcpMessage
          { Typ := refEnv.TcpAbstractHeader,
            Content := refEnv.marshalHeaders
              (refEnv.localAbstractHeaders worldA.ledger refEnv.LocalChainId2) }] :=
  header_sync_request refEnv ⟨2, headersA⟩ worldA
    ⟨"A".toList, 0, "r0".toList⟩ [headerA1] (by decide)

/-- C6. An empty or undecodable header sequence is not reported as a malformed
message: when the payload of a `HEADER_SYNC` envelope leaves the decoded
slice empty (it decodes to an empty sequence, or it fails to decode), both
`handleTcpAbstractHeader` and `handleTcpAbstractHeaderResp` index element 0 of
the empty slice and panic. -/
theorem empty_header_sequence_panics (env : Env) (msg : TcpMessage) (w : World)
    (hdec : (env.unmarshalHeaders msg.Content).1 = []) :
    handleTcpAbstractHeader env msg w = .error (GoPanic.indexOutOfRange 0 0) ∧
      handleTcpAbstractHeaderResp env msg w = .error (GoPanic.indexOutOfRange 0 0) := by
  constructor
  · unfold handleTcpAbstractHeader
    simp [hdec, sliceIndex]
  · unfold handleTcpAbstractHeaderResp
    simp [hdec, sliceIndex]

/-- C6, at concrete inputs: the payload `[]`, which decodes to the empty
sequence, and the payload `oops`, which fails to decode. -/
theorem empty_header_sequence_panics_witness :
    refEnv.unmarshalHeaders "[]".toList = ([], false) ∧
      (handleTcpAbstractHeader refEnv ⟨2, "[]".toList⟩ worldA =
          .error (GoPanic.indexOutOfRange 0 0) ∧
        handleTcpAbstractHeaderResp refEnv ⟨2, "[]".toList⟩ worldA =
          .error (GoPanic.indexOutOfRange 0 0)) ∧
      refEnv.unmarshalHeaders "oops".toList = ([], true) ∧
      (handleTcpAbstractHeader refEnv ⟨2, "oops".toList⟩ worldA =
          .error (GoPanic.indexOutOfRange 0 0) ∧
        handleTcpAbstractHeaderResp refEnv ⟨2, "oops".toList⟩ worldA =
          .error (GoPanic.indexOutOfRange 0 0)) :=
  ⟨by decide, empty_header_sequence_panics refEnv ⟨2, "[]".toList⟩ worldA (by decide),
   by decide, empty_header_sequence_panics refEnv ⟨2, "oops".toList⟩ worldA (by decide)⟩

/-- C7. A frame that fails to decode as an envelope is not skipped: the decode
error is only logged and the loop dispatches on whatever the decoder left in
the message. When what it left has the `HEADER_SYNC` kind and a content that
yields no header, the header handler runs on the frame and panics, which ends
the loop: the remaining reads are never served. -/
theorem malformed_envelope_still_dispatched (env : Env) (r : ReadResult)
    (rest : List ReadResult) (w : World) (msg : TcpMessage)
    (hdata : r.data ≠ []) (herr : r.err = false)
    (hmsg : env.unmarshalTcpMessage (trimSpace r.data) = (msg, true))
    (hkind : msg.Typ = env.TcpAbstractHeader)
    (hping : env.TcpAbstractHeader ≠ env.TcpPing)
    (hdec : (env.unmarshalHeaders msg.Content).1 = []) :
    serverStep env r.data w = handleTcpAbstractHeader env msg w ∧
      serverStep env r.data w = .error (GoPanic.indexOutOfRange 0 0) ∧
      ServerConnHandler env (r :: rest) w = .error (GoPanic.indexOutOfRange 0 0) := by
  have h1 : serverStep env r.data w = handleTcpAbstractHeader env msg w := by
    unfold serverStep serverDispatch
    simp [hmsg, hkind, hping]
  have h2 : serverStep env r.data w = .error (GoPanic.indexOutOfRange 0 0) := by
    rw [h1]
    exact (handleTcpAbstractHeader_panics_on_empty env msg w hdec)
  exact ⟨h1, h2, ServerConnHandler_cons_panic env r rest w _ hdata herr h2⟩

/-- C7, at a concrete input: the frame `frameBadContent`, followed by a ping
that is never answered. -/
theorem malformed_envelope_still_dispatched_witness :
    refEnv.unmarshalTcpMessage (trimSpace frameBadContent) = (⟨2, []⟩, true) ∧
      serverStep refEnv frameBadContent worldA = handleTcpAbstractHeader refEnv ⟨2, []⟩ worldA ∧
      serverStep refEnv frameBadContent worldA = .error (GoPanic.indexOutOfRange 0 0) ∧
      ServerConnHandler refEnv [⟨frameBadContent, false⟩, ⟨framePing, false⟩] worldA =
        .error (GoPanic.indexOutOfRange 0 0) :=
  ⟨by decide,
   malformed_envelope_still_dispatched refEnv ⟨frameBadContent, false⟩ [⟨framePing, false⟩]
     worldA ⟨2, []⟩ (by decide) rfl (by decide) (by decide) (by decide) (by decide)⟩

/-- C8. Ping/Pong: when the envelope decoded from a successfully read frame
has kind `PING`, whatever its content, the responder loop handles the frame
without a panic, writes exactly one envelope, the `PONG` envelope with empty
content, leaves the ledger and the header store as they were, and goes on with
the next read. -/
theorem ping_pong (env : Env) (r : ReadResult) (rest : List ReadResult) (w : World)
    (hdata : r.data ≠ []) (herr : r.err = false)
    (hkind : (env.unmarshalTcpMessage (trimSpace r.data)).1.Typ = env.TcpPing) :
    ∃ w1 : World, serverStep env r.data w = .ok w1 ∧
      w1.out = w.out ++ [env.marshalTcpMessage { Typ := env.TcpPong, Content := [] }] ∧
      w1.ledger = w.ledger ∧
      w1.store = w.store ∧
      ServerConnHandler env (r :: rest) w = ServerConnHandler env rest w1 := by
  have hstep : serverStep env r.data w =
      .ok (connWrite (env.marshalTcpMessage { Typ := env.TcpPong, Content := [] }) w) := by
    unfold serverStep serverDispatch
    simp [hkind, handleTcpPing]
  exact ⟨_, hstep, rfl, rfl, rfl, ServerConnHandler_cons_ok env r rest w _ hdata herr hstep⟩

/-- C8, at a concrete input: the frame `framePing` read by `worldA`. -/
theorem ping_pong_witness :
    ∃ w1 : World, serverStep refEnv framePing worldA = .ok w1 ∧
      w1.out = worldA.out ++ [refEnv.marshalTcpMessage { Typ := refEnv.TcpPong, Content := [] }] ∧
      w1.ledger = worldA.ledger ∧
      w1.store = worldA.store ∧
      ServerConnHandler refEnv [⟨framePing, false⟩] worldA = ServerConnHandler refEnv [] w1 :=
  ping_pong refEnv ⟨framePing, false⟩ [] worldA (by decide) rfl (by decide)

/-- C10. Header-sync idempotence: when the payload of a `HEADER_SYNC` envelope
decodes to a non-empty header sequence, handling it twice in a row, by
`handleTcpAbstractHeader` or by `handleTcpAbstractHeaderResp`, leaves the
header store exactly as handling it once does, and that store holds exactly
the received payload under the key of the chain, whatever was stored there
before. -/
theorem header_sync_idempotent (env : Env) (msg : TcpMessage) (w : World)
    (first : AbstractBlockHeader) (rest : List AbstractBlockHeader)
    (hdec : (env.unmarshalHeaders msg.Content).1 = first :: rest) :
    (∃ w1 w2 : World, handleTcpAbstractHeader env msg w = .ok w1 ∧
      handleTcpAbstractHeader env msg w1 = .ok w2 ∧
      w2.store = w1.store ∧
      w1.store (env.RemoteHeadersKey ++ first.ChainId) = some msg.Content) ∧
    (∃ v1 v2 : World, handleTcpAbstractHeaderResp env msg w = .ok v1 ∧
      handleTcpAbstractHeaderResp env msg v1 = .ok v2 ∧
      v2.store = v1.store ∧
      v1.store (env.RemoteHeadersKey ++ first.ChainId) = some msg.Content) := by
  constructor
  · refine ⟨_, _, handleTcpAbstractHeader_stores env msg w first rest hdec,
      handleTcpAbstractHeader_stores env msg _ first rest hdec, ?_, ?_⟩
    · funext k
      by_cases hk : k = env.RemoteHeadersKey ++ first.ChainId <;> simp [hk]
    · simp
  · refine ⟨_, _, handleTcpAbstractHeaderResp_stores env msg w first rest hdec,
      handleTcpAbstractHeaderResp_stores env msg _ first rest hdec, ?_, ?_⟩
    · funext k
      by_cases hk : k = env.RemoteHeadersKey ++ first.ChainId <;> simp [hk]
    · simp

/-- C10, at a concrete input: `worldA` syncs the headers of chain `A` twice. -/
theorem header_sync_idempotent_witness :
    (∃ w1 w2 : World, handleTcpAbstractHeader refEnv ⟨2, headersA⟩ worldA = .ok w1 ∧
      handleTcpAbstractHeader refEnv ⟨2, headersA⟩ w1 = .ok w2 ∧
      w2.store = w1.store ∧
      w1.store (refEnv.RemoteHeadersKey ++ "A".toList) = some headersA) ∧
    (∃ v1 v2 : World, handleTcpAbstractHeaderResp refEnv ⟨2, headersA⟩ worldA = .ok v1 ∧
      handleTcpAbstractHeaderResp refEnv ⟨2, headersA⟩ v1 = .ok v2 ∧
      v2.store = v1.store ∧
      v1.store (refEnv.RemoteHeadersKey ++ "A".toList) = some headersA) :=
  header_sync_idempotent refEnv ⟨2, headersA⟩ worldA
    ⟨"A".toList, 0, "r0".toList⟩ [headerA1] (by decide)

end Ssbc
